import Mathlib

/-!
Verification of the analysis-and-reconciliation pipeline of the document
signing app (`src/services/aiService.ts`), as a shallow embedding: the
service's pure logic is translated into executable Lean definitions and the
specification's claims are settled as theorems about them.

JavaScript strings are modelled as Lean `String`/`List Char`; JS numbers as
`Rat`; absent (`undefined`/`null`) values as `Option`; thrown exceptions as
`Except`.  External collaborators (file system, HTTP fetch, clock) are
modelled by explicit outcome parameters threaded through a `RunEnv` record.
-/

/-! ## JS string primitives (modelled on `List Char`) -/

/-- Decidable prefix test on character lists (JS `String.prototype.startsWith`
applied to the underlying code points). -/
def listIsPrefix : List Char → List Char → Bool
  | [], _ => true
  | p :: ps, cs =>
    match cs with
    | [] => false
    | b :: bs => p = b && listIsPrefix ps bs

/-- JS `String.prototype.includes`: `pat` occurs contiguously in `hay`. -/
def listContains : List Char → List Char → Bool
  | [], pat => listIsPrefix pat []
  | c :: rest, pat => listIsPrefix pat (c :: rest) || listContains rest pat

/-- JS `s.includes(pat)`. -/
def substrContains (s pat : String) : Bool :=
  listContains s.data pat.data

/-- JS `s.startsWith(pat)`. -/
def strStartsWith (s pat : String) : Bool :=
  listIsPrefix pat.data s.data

/-- JS `s.endsWith(pat)`. -/
def strEndsWith (s pat : String) : Bool :=
  listIsPrefix pat.data.reverse s.data.reverse

/-- The whitespace class of JS regexp `\s` / `String.prototype.trim`
(restricted to the code points that can actually appear in this pipeline). -/
def jsWs (c : Char) : Bool :=
  c = ' ' || c = '\t' || c = '\n' || c = '\r' ||
    c = Char.ofNat 11 || c = Char.ofNat 12 || c = Char.ofNat 0xa0 || c = Char.ofNat 0xfeff

/-- JS `s.trim()`. -/
def jsTrim (s : String) : String :=
  String.mk (((s.data.dropWhile jsWs).reverse.dropWhile jsWs).reverse)

/-- Helper for splitting on a single separator character. -/
def splitOnCharAux (sep : Char) : List Char → List Char → List String
  | [], acc => [String.mk acc.reverse]
  | c :: cs, acc =>
    if c = sep then String.mk acc.reverse :: splitOnCharAux sep cs []
    else splitOnCharAux sep cs (c :: acc)

/-- JS `s.split(sep)` for a one-character separator. -/
def jsSplitChar (s : String) (sep : Char) : List String :=
  splitOnCharAux sep s.data []

mutual

/-- Helper for `jsSplitWs`: inside a token, `acc` holds its reversed prefix. -/
def splitWsTok : List Char → List Char → List String
  | [], acc => [String.mk acc.reverse]
  | c :: cs, acc =>
    if jsWs c then String.mk acc.reverse :: splitWsSkip cs
    else splitWsTok cs (c :: acc)

/-- Helper for `jsSplitWs`: inside a maximal whitespace separator run. -/
def splitWsSkip : List Char → List String
  | [] => [""]
  | c :: cs => if jsWs c then splitWsSkip cs else splitWsTok cs [c]

end

/-- JS `s.split(/\s+/)` (empty leading/trailing pieces included, as in JS). -/
def jsSplitWs (s : String) : List String :=
  splitWsTok s.data []

/-- ASCII lower-casing, JS `s.toLowerCase()` restricted to the characters the
pipeline actually tests (`A`-`Z`; other scripts are unaffected in both). -/
def jsToLower (s : String) : String :=
  String.mk (s.data.map Char.toLower)

/-- ASCII upper-casing, JS `s.toUpperCase()` on the language tags. -/
def jsToUpper (s : String) : String :=
  String.mk (s.data.map Char.toUpper)

/-- Remove the first occurrence of `pat` from `cs`
(JS `s.replace(pat, "")` with a non-global pattern). -/
def removeFirst : List Char → List Char → List Char
  | [], _ => []
  | c :: cs, pat =>
    if listIsPrefix pat (c :: cs) then (c :: cs).drop pat.length
    else c :: removeFirst cs pat

/-- JS truthiness of a possibly-absent string (`undefined`/`null`/`""` are
falsy). -/
def jsTruthy : Option String → Bool
  | some s => s ≠ ""
  | none => false

/-- JS `a || b` on a number: `0` is falsy and replaced by the default. -/
def jsNumOr (v d : Rat) : Rat :=
  if v = 0 then d else v

/-- JS `a || b` on a string: `""` is falsy and replaced by the default. -/
def jsStrOr (v d : String) : String :=
  if v = "" then d else v

/-! ## Language detection (`detectLanguage`, aiService.ts lines 171-192) -/

def isHebrewChar (c : Char) : Bool := 0x590 ≤ c.toNat && c.toNat ≤ 0x5FF
def isArabicChar (c : Char) : Bool := 0x600 ≤ c.toNat && c.toNat ≤ 0x6FF
def isChineseChar (c : Char) : Bool := 0x4E00 ≤ c.toNat && c.toNat ≤ 0x9FFF
def isJapaneseChar (c : Char) : Bool :=
  (0x3040 ≤ c.toNat && c.toNat ≤ 0x309F) || (0x30A0 ≤ c.toNat && c.toNat ≤ 0x30FF)
def isKoreanChar (c : Char) : Bool := 0xAC00 ≤ c.toNat && c.toNat ≤ 0xD7AF
def isCyrillicChar (c : Char) : Bool := 0x400 ≤ c.toNat && c.toNat ≤ 0x4FF
def isThaiChar (c : Char) : Bool := 0xE00 ≤ c.toNat && c.toNat ≤ 0xE7F
def isDevanagariChar (c : Char) : Bool := 0x900 ≤ c.toNat && c.toNat ≤ 0x97F

/-- Model of `detectLanguage(text)`: ordered Unicode-block tests, first match wins,
default `"en"`. -/
def detectLanguage (text : String) : String :=
  if text.data.any isHebrewChar then "he"
  else if text.data.any isArabicChar then "ar"
  else if text.data.any isChineseChar then "zh"
  else if text.data.any isJapaneseChar then "ja"
  else if text.data.any isKoreanChar then "ko"
  else if text.data.any isCyrillicChar then "ru"
  else if text.data.any isThaiChar then "th"
  else if text.data.any isDevanagariChar then "hi"
  else "en"

/-- The fixed set of language tags `detectLanguage` can produce. -/
def languageTags : List String :=
  ["he", "ar", "zh", "ja", "ko", "ru", "th", "hi", "en"]

/-- The fixed priority list of Unicode-block patterns, in source order. -/
def languagePriority : List ((Char → Bool) × String) :=
  [(isHebrewChar, "he"), (isArabicChar, "ar"), (isChineseChar, "zh"),
   (isJapaneseChar, "ja"), (isKoreanChar, "ko"), (isCyrillicChar, "ru"),
   (isThaiChar, "th"), (isDevanagariChar, "hi")]

/-! ## Data model (aiService.ts lines 4-82) -/

/-- Model of `FormField.type` (aiService.ts line 6). -/
inductive FieldType where
  | text | checkbox | signature | radio | date | email | phone | number | select
deriving DecidableEq, Repr

/-- Model of `Question.type` (aiService.ts line 26). -/
inductive QuestionType where
  | yes_no | multiple_choice | text | date | number | rating
deriving DecidableEq, Repr

/-- A `{x, y, width, height}` rectangle; JS numbers modelled as `Rat`. -/
structure Position where
  x : Rat
  y : Rat
  width : Rat
  height : Rat
deriving DecidableEq, Repr

/-- Model of `FormField.validation` (aiService.ts lines 14-20). -/
structure FieldValidation where
  pattern : Option String
  minLength : Option Rat
  maxLength : Option Rat
  minValue : Option Rat
  maxValue : Option Rat
deriving DecidableEq, Repr

/-- Model of `FormField` (aiService.ts lines 4-21). -/
structure FormField where
  id : String
  type : FieldType
  label : String
  value : Option String
  required : Bool
  position : Position
  page : Rat
  confidence : Rat
  suggestions : Option (List String)
  validation : Option FieldValidation
deriving DecidableEq, Repr

/-- Model of `Question` (aiService.ts lines 23-33). -/
structure Question where
  id : String
  text : String
  type : QuestionType
  options : Option (List String)
  position : Position
  page : Rat
  confidence : Rat
  value : Option String
  aiSuggestion : Option String
deriving DecidableEq, Repr

/-- An element of `DocumentAnalysis.signatures` (aiService.ts lines 46-52):
a detected signature location, not yet bound to signer data. -/
structure SignatureZone where
  id : String
  label : String
  position : Position
  page : Rat
  required : Bool
deriving DecidableEq, Repr

/-- Model of `SignatureData.type` (aiService.ts line 68). -/
inductive SignatureType where
  | typed | image | drawing
deriving DecidableEq, Repr

/-- Model of `SignatureData` (aiService.ts lines 65-71). -/
structure SignatureData where
  id : String
  name : String
  type : SignatureType
  data : String
  isDefault : Bool
deriving DecidableEq, Repr

/-- Model of `DocumentAnalysis.riskAssessment` (aiService.ts lines 58-62); the `level`
string is kept raw as in the incoming JSON. -/
structure RiskAssessment where
  level : String
  issues : List String
  recommendations : List String
deriving DecidableEq, Repr

/-- Model of `DocumentAnalysis.documentInfo` (aiService.ts lines 36-43). -/
structure DocumentInfo where
  name : String
  size : Nat
  pages : Nat
  type : String
  language : Option String
  category : Option String
deriving DecidableEq, Repr

/-- Model of `DocumentAnalysis` (aiService.ts lines 35-63). -/
structure DocumentAnalysis where
  documentInfo : DocumentInfo
  formFields : List FormField
  questions : List Question
  signatures : List SignatureZone
  processingTime : Rat
  confidence : Rat
  content : Option String
  summary : Option String
  keyInsights : Option (List String)
  riskAssessment : Option RiskAssessment
deriving DecidableEq, Repr

/-- A point of a `SignatureRequest` stroke
(aiService.ts lines 1049-1054 and 1063-1069). -/
structure SigPoint where
  x : Rat
  y : Rat
  pressure : Rat
  timestamp : Nat
deriving DecidableEq, Repr

/-- A backend-bound signature request (aiService.ts lines 1072-1080). -/
structure SignatureRequest where
  points : List SigPoint
  x : Rat
  y : Rat
  width : Rat
  height : Rat
  color : String
  page : Rat
deriving DecidableEq, Repr

/-- Model of `AIProcessingResult` (aiService.ts lines 73-82). -/
structure AIProcessingResult where
  success : Bool
  analysis : DocumentAnalysis
  filledFields : List FormField
  answeredQuestions : List Question
  signedDocumentUri : Option String
  processingTime : Rat
  errors : Option (List String)
  warnings : Option (List String)
deriving DecidableEq, Repr

/-! ## Heuristic analyzer (aiService.ts lines 452-574) -/

/-- Model of `extractFieldLabel(line)` (aiService.ts lines 501-516): strip leading and
trailing underscore/whitespace runs, remove the first checkbox glyph, trim,
and default an empty label to `"Field"`. -/
def extractFieldLabel (line : String) : String :=
  let s1 := (line.data.reverse.dropWhile (fun c => c = '_' || jsWs c)).reverse
  let s2 := s1.dropWhile (fun c => c = '_' || jsWs c)
  let s3 := removeFirst s2 ("[ ]".data)
  let s4 := removeFirst s3 ("☐".data)
  let label := jsTrim (String.mk s4)
  if label = "" then "Field" else label

/-- Model of `extractFormFieldsFromContent(content)` (aiService.ts lines 452-496):
line-oriented scan; the underscore rule, the checkbox rule and the signature
keyword rule are tried in this order per line. -/
def extractFormFieldsFromContent (content : String) : List FormField :=
  let lines := jsSplitChar content '\n'
  lines.enum.filterMap fun p =>
    let index := p.1
    let trimmedLine := jsTrim p.2
    if substrContains trimmedLine "_____" || substrContains trimmedLine "________" then
      some { id := "field_" ++ toString index, type := FieldType.text,
             label := extractFieldLabel trimmedLine, value := none, required := true,
             position := ⟨100, ((150 + index * 30 : Nat) : Rat), 200, 30⟩,
             page := 1, confidence := 0.8, suggestions := none, validation := none }
    else if substrContains trimmedLine "[ ]" || substrContains trimmedLine "☐" then
      some { id := "checkbox_" ++ toString index, type := FieldType.checkbox,
             label := extractFieldLabel trimmedLine, value := none, required := false,
             position := ⟨100, ((150 + index * 30 : Nat) : Rat), 20, 20⟩,
             page := 1, confidence := 0.9, suggestions := none, validation := none }
    else if substrContains (jsToLower trimmedLine) "signature" ||
        substrContains (jsToLower trimmedLine) "חתימה" ||
        substrContains (jsToLower trimmedLine) "توقيع" then
      some { id := "signature_" ++ toString index, type := FieldType.signature,
             label := extractFieldLabel trimmedLine, value := none, required := true,
             position := ⟨100, ((150 + index * 30 : Nat) : Rat), 150, 50⟩,
             page := 1, confidence := 0.95, suggestions := none, validation := none }
    else none

/-- Model of `extractQuestionsFromContent(content)` (aiService.ts lines 521-546). -/
def extractQuestionsFromContent (content : String) : List Question :=
  let lines := jsSplitChar content '\n'
  lines.enum.filterMap fun p =>
    let index := p.1
    let trimmedLine := jsTrim p.2
    if substrContains trimmedLine "?" ||
        substrContains (jsToLower trimmedLine) "do you" ||
        substrContains (jsToLower trimmedLine) "have you" ||
        substrContains (jsToLower trimmedLine) "are you" then
      some { id := "question_" ++ toString index, text := trimmedLine,
             type := QuestionType.yes_no, options := none,
             position := ⟨100, ((200 + index * 30 : Nat) : Rat), 300, 30⟩,
             page := 1, confidence := 0.8, value := none,
             aiSuggestion := some "Please answer based on your situation" }
    else none

/-- Model of `getGenericSignatures(language)` (aiService.ts lines 551-574). -/
def getGenericSignatures (language : String) : List SignatureZone :=
  let label :=
    if language = "he" then "חתימה"
    else if language = "ar" then "توقيع"
    else if language = "zh" then "签名"
    else if language = "ja" then "署名"
    else if language = "ko" then "서명"
    else if language = "ru" then "Подпись"
    else if language = "th" then "ลายเซ็น"
    else if language = "hi" then "हस्ताक्षर"
    else "Signature"
  [{ id := "1", label := label, position := ⟨100, 500, 150, 50⟩, page := 1,
     required := true }]

/-! ## A model of `JSON.parse`

The provider response recovery extracts a `{...}` span from the model output
and feeds it to `JSON.parse`, whose failure is caught.  `JSON.parse` is
modelled by a fuelled recursive-descent parser over code points that follows
the JSON grammar (in particular, trailing commas before `}` or `]` are a
parse error, as in JS). -/

/-- A parsed JSON value.  Numbers are modelled as `Rat`. -/
inductive JVal where
  | null
  | bool (b : Bool)
  | num (q : Rat)
  | str (s : String)
  | arr (elems : List JVal)
  | obj (fields : List (String × JVal))

instance : Inhabited JVal := ⟨JVal.null⟩

/-- The opening-brace code point, `"{"`. -/
def lbrace : Char := Char.ofNat 123

/-- The closing-brace code point, `"}"`. -/
def rbrace : Char := Char.ofNat 125

/-- JSON whitespace (space, tab, line feed, carriage return). -/
def jsonWs (c : Char) : Bool :=
  c = ' ' || c = '\t' || c = '\n' || c = '\r'

/-- Skip JSON whitespace. -/
def skipWs (cs : List Char) : List Char :=
  cs.dropWhile jsonWs

/-- Hexadecimal digit value of a code point, if any (digits, then the
lower-case and upper-case letter ranges, by ASCII codes). -/
def hexVal (c : Char) : Option Nat :=
  let n := c.toNat
  if 48 ≤ n && n ≤ 57 then some (n - 48)
  else if 97 ≤ n && n ≤ 102 then some (n - 87)
  else if 65 ≤ n && n ≤ 70 then some (n - 55)
  else none

/-- Parse the body of a JSON string literal (after the opening quote),
handling escapes; returns the decoded string and the rest of the input. -/
def parseStringBody : Nat → List Char → List Char → Option (String × List Char)
  | 0, _, _ => none
  | _ + 1, [], _ => none
  | f + 1, c :: rest, acc =>
    if c = '"' then some (String.mk acc.reverse, rest)
    else if c = '\\' then
      match rest with
      | '"' :: r => parseStringBody f r ('"' :: acc)
      | '\\' :: r => parseStringBody f r ('\\' :: acc)
      | '/' :: r => parseStringBody f r ('/' :: acc)
      | 'b' :: r => parseStringBody f r (Char.ofNat 8 :: acc)
      | 'f' :: r => parseStringBody f r (Char.ofNat 12 :: acc)
      | 'n' :: r => parseStringBody f r ('\n' :: acc)
      | 'r' :: r => parseStringBody f r ('\r' :: acc)
      | 't' :: r => parseStringBody f r ('\t' :: acc)
      | 'u' :: h1 :: h2 :: h3 :: h4 :: r =>
        match hexVal h1, hexVal h2, hexVal h3, hexVal h4 with
        | some a, some b, some c2, some d =>
          parseStringBody f r (Char.ofNat (((a * 16 + b) * 16 + c2) * 16 + d) :: acc)
        | _, _, _, _ => none
      | _ => none
    else if c.toNat < 0x20 then none
    else parseStringBody f rest (c :: acc)

/-- Digit run: returns the digits (at least one) and the rest. -/
def parseDigits : List Char → Option (List Char × List Char)
  | cs =>
    let ds := cs.takeWhile fun c => '0' ≤ c && c ≤ '9'
    if ds.isEmpty then none else some (ds, cs.drop ds.length)

/-- Numeric value of a digit run. -/
def digitsToNat (ds : List Char) : Nat :=
  ds.foldl (fun n c => n * 10 + (c.toNat - '0'.toNat)) 0

/-- Value of `10 ^ n` on naturals. -/
def pow10 (n : Nat) : Nat := Nat.pow 10 n

/-- The rational value of the decimal `±intDs.fracDs × 10^(±emag)`, built with
integer arithmetic (so that integral values reduce without normalisation). -/
def decimalValue (neg : Bool) (intDs fracDs : List Char) (eneg : Bool)
    (emag : Nat) : Rat :=
  let mantissa : Int := ((digitsToNat (intDs ++ fracDs) : Nat) : Int)
  let mantissa : Int := if neg then -mantissa else mantissa
  let fracLen := fracDs.length
  if eneg then mkRat mantissa (pow10 (fracLen + emag))
  else if fracLen ≤ emag then ((mantissa * ((pow10 (emag - fracLen) : Nat) : Int) : Int) : Rat)
  else mkRat mantissa (pow10 (fracLen - emag))

/-- Parse a JSON number (sign, integer part without leading zeros, optional
fraction, optional exponent) into a `Rat`. -/
def parseNumber (cs : List Char) : Option (Rat × List Char) :=
  let neg := listIsPrefix ['-'] cs
  let cs1 := if neg then cs.drop 1 else cs
  match parseDigits cs1 with
  | none => none
  | some (intDs, cs2) =>
    if intDs.length > 1 && intDs.head? = some '0' then none
    else
      let (fracDs, cs3) : List Char × List Char := match cs2 with
        | '.' :: r =>
          match parseDigits r with
          | some (fds, r2) => (fds, r2)
          | none => ([], '.' :: r)
        | _ => ([], cs2)
      match cs3 with
      | '.' :: _ => none
      | _ =>
        let (expOk, eneg, emag, cs4) : Bool × Bool × Nat × List Char := match cs3 with
          | 'e' :: r | 'E' :: r =>
            let (en, r1) := match r with
              | '-' :: r2 => (true, r2)
              | '+' :: r2 => (false, r2)
              | _ => (false, r)
            match parseDigits r1 with
            | some (expDs, r2) => (true, en, digitsToNat expDs, r2)
            | none => (false, false, 0, cs3)
          | _ => (true, false, 0, cs3)
        if expOk then some (decimalValue neg intDs fracDs eneg emag, cs4) else none

mutual

/-- Parse one JSON value. -/
def parseValue : Nat → List Char → Option (JVal × List Char)
  | 0, _ => none
  | f + 1, cs =>
    let cs := skipWs cs
    match cs with
    | [] => none
    | c :: rest =>
      if c = lbrace then
        let r1 := skipWs rest
        match r1 with
        | c1 :: r2 => if c1 = rbrace then some (JVal.obj [], r2) else parseObjElems f r1 []
        | [] => none
      else if c = '[' then
        match skipWs rest with
        | ']' :: r2 => some (JVal.arr [], r2)
        | r1 => parseArrElems f r1 []
      else if c = '"' then
        match parseStringBody (rest.length + 1) rest [] with
        | some (s, r) => some (JVal.str s, r)
        | none => none
      else if listIsPrefix "true".data cs then some (JVal.bool true, cs.drop 4)
      else if listIsPrefix "false".data cs then some (JVal.bool false, cs.drop 5)
      else if listIsPrefix "null".data cs then some (JVal.null, cs.drop 4)
      else
        match parseNumber cs with
        | some (q, r) => some (JVal.num q, r)
        | none => none

/-- Parse the elements of a JSON array after the opening bracket (non-empty
case); a comma must be followed by another element. -/
def parseArrElems : Nat → List Char → List JVal → Option (JVal × List Char)
  | 0, _, _ => none
  | f + 1, cs, acc =>
    match parseValue f cs with
    | none => none
    | some (v, rest) =>
      match skipWs rest with
      | ',' :: r => parseArrElems f r (v :: acc)
      | ']' :: r => some (JVal.arr (v :: acc).reverse, r)
      | _ => none

/-- Parse the members of a JSON object after the opening brace (non-empty
case); a comma must be followed by another `"key": value` pair. -/
def parseObjElems : Nat → List Char → List (String × JVal) → Option (JVal × List Char)
  | 0, _, _ => none
  | f + 1, cs, acc =>
    match skipWs cs with
    | '"' :: r =>
      match parseStringBody (r.length + 1) r [] with
      | some (k, r2) =>
        match skipWs r2 with
        | ':' :: r3 =>
          match parseValue f r3 with
          | some (v, r4) =>
            match skipWs r4 with
            | ',' :: r5 => parseObjElems f r5 ((k, v) :: acc)
            | c :: r5 => if c = rbrace then some (JVal.obj ((k, v) :: acc).reverse, r5) else none
            | [] => none
          | none => none
        | _ => none
      | none => none
    | _ => none

end

/-- Model of `JSON.parse(s)`: parse a complete JSON document (nothing but whitespace
may remain); `none` models a thrown `SyntaxError`. -/
def jsonParse (s : String) : Option JVal :=
  match parseValue (2 * s.data.length + 2) s.data with
  | some (v, rest) => if (skipWs rest).isEmpty then some v else none
  | none => none

/-! ## Provider response recovery (aiService.ts lines 277-289) -/

/-- The span matched by the regexp `/\{[\s\S]*\}/` (JS `String.prototype.match`
without the global flag): from the first opening brace to the last closing
brace, provided the latter comes after the former. -/
def jsonSpan (s : String) : Option String :=
  let cs := s.data
  match cs.findIdx? (fun c => c = lbrace) with
  | none => none
  | some i =>
    match cs.reverse.findIdx? (fun c => c = rbrace) with
    | none => none
    | some jr =>
      let j := cs.length - 1 - jr
      if i < j then some (String.mk ((cs.drop i).take (j - i + 1))) else none

/-- The raw analysis object produced by a provider, as consumed by
`analyzeDocument` (a dynamic JS object; each property may be absent). -/
structure RawAnalysis where
  language : Option String
  category : Option String
  summary : Option String
  keyInsights : Option (List String)
  riskAssessment : Option RiskAssessment
  formFields : Option (List FormField)
  questions : Option (List Question)
  signatures : Option (List SignatureZone)
deriving DecidableEq, Repr

/-- Property lookup on a parsed JSON value; with `JSON.parse` duplicate keys
resolve to the last occurrence. -/
def jLookup (j : JVal) (k : String) : Option JVal :=
  match j with
  | JVal.obj fs => (fs.reverse.find? (fun p => p.1 = k)).map (fun p => p.2)
  | _ => none

/-- String with default. -/
def jStrD (v : Option JVal) (d : String) : String :=
  match v with
  | some (JVal.str s) => s
  | _ => d

/-- Number with default. -/
def jNumD (v : Option JVal) (d : Rat) : Rat :=
  match v with
  | some (JVal.num q) => q
  | _ => d

/-- Boolean with default. -/
def jBoolD (v : Option JVal) (d : Bool) : Bool :=
  match v with
  | some (JVal.bool b) => b
  | _ => d

/-- Optional string property. -/
def jStrOpt (v : Option JVal) : Option String :=
  match v with
  | some (JVal.str s) => some s
  | _ => none

/-- A list of strings (non-string elements defaulted, as a typed projection of
the dynamic JS value). -/
def jStrListD (v : Option JVal) : Option (List String) :=
  match v with
  | some (JVal.arr vs) => some (vs.map fun x => jStrD (some x) "")
  | _ => none

/-- Decode a `{x, y, width, height}` object. -/
def decodePosition (v : Option JVal) : Position :=
  match v with
  | some p =>
    { x := jNumD (jLookup p "x") 0, y := jNumD (jLookup p "y") 0,
      width := jNumD (jLookup p "width") 0, height := jNumD (jLookup p "height") 0 }
  | none => ⟨0, 0, 0, 0⟩

/-- Model of `FormField.type` strings; unrecognised tags are projected to `text`. -/
def fieldTypeOfString (s : String) : FieldType :=
  if s = "checkbox" then FieldType.checkbox
  else if s = "signature" then FieldType.signature
  else if s = "radio" then FieldType.radio
  else if s = "date" then FieldType.date
  else if s = "email" then FieldType.email
  else if s = "phone" then FieldType.phone
  else if s = "number" then FieldType.number
  else if s = "select" then FieldType.select
  else FieldType.text

/-- Model of `Question.type` strings; unrecognised tags are projected to `text`. -/
def questionTypeOfString (s : String) : QuestionType :=
  if s = "yes_no" then QuestionType.yes_no
  else if s = "multiple_choice" then QuestionType.multiple_choice
  else if s = "date" then QuestionType.date
  else if s = "number" then QuestionType.number
  else if s = "rating" then QuestionType.rating
  else QuestionType.text

/-- Typed projection of a JSON form-field object. -/
def decodeFormField (v : JVal) : FormField :=
  { id := jStrD (jLookup v "id") "", type := fieldTypeOfString (jStrD (jLookup v "type") "text"),
    label := jStrD (jLookup v "label") "", value := jStrOpt (jLookup v "value"),
    required := jBoolD (jLookup v "required") false,
    position := decodePosition (jLookup v "position"), page := jNumD (jLookup v "page") 1,
    confidence := jNumD (jLookup v "confidence") 0,
    suggestions := jStrListD (jLookup v "suggestions"), validation := none }

/-- Typed projection of a JSON question object. -/
def decodeQuestion (v : JVal) : Question :=
  { id := jStrD (jLookup v "id") "", text := jStrD (jLookup v "text") "",
    type := questionTypeOfString (jStrD (jLookup v "type") "text"),
    options := jStrListD (jLookup v "options"),
    position := decodePosition (jLookup v "position"), page := jNumD (jLookup v "page") 1,
    confidence := jNumD (jLookup v "confidence") 0,
    value := jStrOpt (jLookup v "value"), aiSuggestion := jStrOpt (jLookup v "aiSuggestion") }

/-- Typed projection of a JSON signature-zone object. -/
def decodeSignatureZone (v : JVal) : SignatureZone :=
  { id := jStrD (jLookup v "id") "", label := jStrD (jLookup v "label") "",
    position := decodePosition (jLookup v "position"), page := jNumD (jLookup v "page") 1,
    required := jBoolD (jLookup v "required") false }

/-- Typed projection of a successfully parsed provider JSON object into the
shape `analyzeDocument` reads. -/
def decodeRaw (j : JVal) : RawAnalysis :=
  { language := jStrOpt (jLookup j "language"), category := jStrOpt (jLookup j "category"),
    summary := jStrOpt (jLookup j "summary"), keyInsights := jStrListD (jLookup j "keyInsights"),
    riskAssessment :=
      match jLookup j "riskAssessment" with
      | some r =>
        match r with
        | JVal.obj _ =>
          some { level := jStrD (jLookup r "level") "",
                 issues := (jStrListD (jLookup r "issues")).getD [],
                 recommendations := (jStrListD (jLookup r "recommendations")).getD [] }
        | _ => none
      | none => none,
    formFields :=
      match jLookup j "formFields" with
      | some (JVal.arr vs) => some (vs.map decodeFormField)
      | _ => none,
    questions :=
      match jLookup j "questions" with
      | some (JVal.arr vs) => some (vs.map decodeQuestion)
      | _ => none,
    signatures :=
      match jLookup j "signatures" with
      | some (JVal.arr vs) => some (vs.map decodeSignatureZone)
      | _ => none }

/-! ## Fallback analysis (`getFallbackAnalysis`, aiService.ts lines 299-358) -/

/-- Model of `getFallbackAnalysis(content, fileType)`: the deterministic heuristic
tier.  (`fileType` is only logged in the source and does not influence the
result.) -/
def getFallbackAnalysis (content fileType : String) : RawAnalysis :=
  let language := detectLanguage content
  let wordCount := (jsSplitWs content).length
  let hasHebrew := substrContains content "בלינק" || substrContains content "פינטק" ||
    substrContains content "ויתור"
  let hasArabic := substrContains content "عربي" || substrContains content "وثيقة"
  let hasChinese := substrContains content "中文" || substrContains content "文档"
  let hasJapanese := substrContains content "日本語" || substrContains content "文書"
  let category :=
    if hasHebrew then "legal_waiver"
    else if hasArabic then "arabic_document"
    else if hasChinese then "chinese_document"
    else if hasJapanese then "japanese_document"
    else "general_form"
  let insights :=
    if hasHebrew then
      ["Hebrew legal document detected", "Contains waiver and legal clauses",
       "Requires careful review before signing"]
    else if hasArabic then
      ["Arabic document detected", "May contain legal or business terms",
       "Consider translation if needed"]
    else if hasChinese then
      ["Chinese document detected", "May contain business or legal content",
       "Consider translation if needed"]
    else if hasJapanese then
      ["Japanese document detected", "May contain business or legal content",
       "Consider translation if needed"]
    else ["Document contains form fields requiring user input"]
  { language := some language,
    category := some category,
    summary := some (jsToUpper language ++ " document analysis with approximately " ++
      toString wordCount ++ " words"),
    keyInsights := some insights,
    riskAssessment := some
      { level := "medium", issues := ["Document requires careful review"],
        recommendations := ["Review all terms before signing", "Verify personal information"] },
    formFields := some (extractFormFieldsFromContent content),
    questions := some (extractQuestionsFromContent content),
    signatures := some (getGenericSignatures language) }

/-! ## Provider chain (`analyzeContentWithAI`, aiService.ts lines 197-294) -/

/-- Outcome of the LLM fetch, as seen by `analyzeContentWithAI`:
rejection (network error), timeout of the race, a non-2xx response, or a 2xx
response whose `data.response` field is the given model output. -/
inductive ProviderOutcome where
  | netError
  | timeout
  | httpError (status : Nat)
  | ok (response : String)
deriving DecidableEq, Repr

/-- The JSON-extraction step applied to a model output: match `/\{[\s\S]*\}/`
and `JSON.parse` the span. -/
def extractAnalysisJson (aiResponse : String) : Option JVal :=
  match jsonSpan aiResponse with
  | some span => jsonParse span
  | none => none

/-- The response-recovery step of the provider tier: a parsed object when the
extracted span is valid JSON, and the heuristic fallback otherwise (the inner
`catch` of lines 277-289). -/
def recoverAnalysis (content fileType aiResponse : String) : RawAnalysis :=
  match extractAnalysisJson aiResponse with
  | some j => decodeRaw j
  | none => getFallbackAnalysis content fileType

/-- Model of `analyzeContentWithAI(content, fileType)` (aiService.ts lines 197-294):
unconfigured URL, fetch rejection, timeout and non-2xx status all fall back to
`getFallbackAnalysis`; a 2xx response goes through response recovery. -/
def analyzeContentWithAI (llmUrl : Option String) (content fileType : String)
    (outcome : ProviderOutcome) : RawAnalysis :=
  if jsTruthy llmUrl = false then getFallbackAnalysis content fileType
  else
    match outcome with
    | ProviderOutcome.ok aiResponse => recoverAnalysis content fileType aiResponse
    | _ => getFallbackAnalysis content fileType

/-! ## Orchestrator (`analyzeDocument`, aiService.ts lines 579-630) -/

/-- File type of an upload. -/
inductive FileType where
  | pdf | docx
deriving DecidableEq, Repr

/-- The lower-case file-type string. -/
def fileTypeStr : FileType → String
  | FileType.pdf => "pdf"
  | FileType.docx => "docx"

/-- Model of `fileType.toUpperCase()`. -/
def fileTypeUpper : FileType → String
  | FileType.pdf => "PDF"
  | FileType.docx => "DOCX"

/-- Outcome of the signing-backend call (`POST {backendUrl}/api/add-signature`):
a 2xx response with a binary body, a non-2xx response with an error body, or
a rejected fetch. -/
inductive BackendOutcome where
  | ok (bodyBase64 : String)
  | httpError (status : Nat) (body : String)
  | netError
deriving DecidableEq, Repr

/-- The external collaborators of one processing run: configuration,
extraction and network outcomes, file metadata, the clock and the document
directory.  Each run reads them deterministically. -/
structure RunEnv where
  llmUrl : Option String
  provider : ProviderOutcome
  docxContent : Option String
  fileSize : Nat
  backend : BackendOutcome
  now : Nat
  today : String
  docDir : String
  elapsedSeconds : Rat
deriving DecidableEq, Repr

/-- The placeholder used instead of PDF text extraction
(aiService.ts line 593). -/
def pdfPlaceholder : String :=
  "PDF document content - form fields and signatures detected"

/-- The text content `analyzeDocument` works on: DOCX extraction outcome, or
the fixed placeholder for PDF; `none` models an extraction error. -/
def documentContent (env : RunEnv) (fileType : FileType) : Option String :=
  match fileType with
  | FileType.docx => env.docxContent
  | FileType.pdf => some pdfPlaceholder

/-- Model of `fileUri.split('/').pop() || 'document'`. -/
def documentName (fileUri : String) : String :=
  jsStrOr ((jsSplitChar fileUri '/').getLastD "") "document"

/-- Model of `analyzeDocument(fileUri, fileType)` (aiService.ts lines 579-630): extract
content, run the provider chain, normalise into `DocumentAnalysis` with
defensive defaults; a content-extraction error is rethrown as
`Failed to analyze ... document`. -/
def analyzeDocument (env : RunEnv) (fileUri : String) (fileType : FileType) :
    Except String DocumentAnalysis :=
  match documentContent env fileType with
  | none => Except.error ("Failed to analyze " ++ fileTypeUpper fileType ++ " document")
  | some content =>
    let aiAnalysis := analyzeContentWithAI env.llmUrl content (fileTypeStr fileType) env.provider
    Except.ok
      { documentInfo :=
          { name := documentName fileUri, size := env.fileSize, pages := 1,
            type := fileTypeUpper fileType, language := aiAnalysis.language,
            category := aiAnalysis.category },
        formFields := aiAnalysis.formFields.getD [],
        questions := aiAnalysis.questions.getD [],
        signatures := aiAnalysis.signatures.getD [],
        processingTime := env.elapsedSeconds, confidence := 0.85,
        content := some content, summary := aiAnalysis.summary,
        keyInsights := aiAnalysis.keyInsights, riskAssessment := aiAnalysis.riskAssessment }

/-! ## Field reconciliation (aiService.ts lines 635-767) -/

/-- The hard-coded user profile (aiService.ts lines 107-124). -/
structure UserProfile where
  name : String
  email : String
  phone : String
  address : String
  dateOfBirth : String
  occupation : String
  company : String
  experience : String
  education : String
deriving DecidableEq, Repr

/-- Model of `loadUserProfile()` contents. -/
def userProfile : UserProfile :=
  { name := "John Doe", email := "john.doe@example.com", phone := "+1 (555) 123-4567",
    address := "123 Main St, City, State 12345", dateOfBirth := "1990-01-01",
    occupation := "Software Engineer", company := "Tech Corp", experience := "5 years",
    education := "Bachelor\x27s Degree" }

/-- The string-valued entries of the `userData` record, in insertion order
(used both for property access and `Object.entries` iteration). -/
def lookupEntry (entries : List (String × String)) (k : String) : Option String :=
  (entries.find? (fun p => p.1 = k)).map (fun p => p.2)

/-- Model of `findUserValue(fieldLabel, userData)` (aiService.ts lines 658-683):
direct matches on name/email/phone/address (with Hebrew aliases), then the
first `Object.entries` pair whose key occurs in the label. -/
def findUserValue (fieldLabel : String) (entries : List (String × String)) :
    Option String :=
  let label := jsToLower fieldLabel
  let direct := fun (key : String) (aliases : List String) =>
    match lookupEntry entries key with
    | some v => v ≠ "" && aliases.any (fun a => substrContains label a)
    | none => false
  if direct "name" ["name", "שם"] then lookupEntry entries "name"
  else if direct "email" ["email", "אימייל"] then lookupEntry entries "email"
  else if direct "phone" ["phone", "טלפון"] then lookupEntry entries "phone"
  else if direct "address" ["address", "כתובת"] then lookupEntry entries "address"
  else
    (entries.find? (fun p => substrContains label (jsToLower p.1))).map (fun p => p.2)

/-- Model of `generateFieldValue(field)` (aiService.ts lines 688-719); `today` models
`new Date().toISOString().split('T')[0]`. -/
def generateFieldValue (today : String) (field : FormField) : String :=
  let label := jsToLower field.label
  match field.type with
  | FieldType.text =>
    if substrContains label "name" then userProfile.name
    else if substrContains label "email" then userProfile.email
    else if substrContains label "phone" then userProfile.phone
    else if substrContains label "address" then userProfile.address
    else if substrContains label "company" then userProfile.company
    else if substrContains label "occupation" then userProfile.occupation
    else "Sample text"
  | FieldType.email => userProfile.email
  | FieldType.phone => userProfile.phone
  | FieldType.date => today
  | FieldType.number => "42"
  | FieldType.signature => userProfile.name
  | _ => "Sample value"

/-- Fill one form field (`fillFormFields` loop body, aiService.ts
lines 638-652): a truthy user value wins, otherwise a generated value; every
other property is copied unchanged. -/
def fillOneField (today : String) (entries : List (String × String))
    (field : FormField) : FormField :=
  let userValue := findUserValue field.label entries
  if jsTruthy userValue then { field with value := userValue }
  else { field with value := some (generateFieldValue today field) }

/-- Model of `fillFormFields(fields, userData)` (aiService.ts lines 635-653). -/
def fillFormFields (today : String) (fields : List FormField)
    (entries : List (String × String)) : List FormField :=
  fields.map (fillOneField today entries)

/-- Model of `generateQuestionAnswer(question)` (aiService.ts lines 740-767). -/
def generateQuestionAnswer (today : String) (question : Question) : String :=
  let text := jsToLower question.text
  match question.type with
  | QuestionType.yes_no =>
    if substrContains text "experience" || substrContains text "skill" then "Yes"
    else if substrContains text "criminal" || substrContains text "conviction" then "No"
    else "Yes"
  | QuestionType.multiple_choice =>
    match question.options with
    | some (o :: _) => jsStrOr o "Option 1"
    | _ => "Option 1"
  | QuestionType.text => "Sample answer based on question context"
  | QuestionType.date => today
  | QuestionType.number => "5"
  | QuestionType.rating => "4"

/-- Model of `answerQuestions(questions, userData)` (aiService.ts lines 724-735): maps
each question to a copy carrying a generated answer. -/
def answerQuestions (today : String) (questions : List Question) : List Question :=
  questions.map fun question =>
    { question with value := some (generateQuestionAnswer today question) }

/-! ## Signature collection (aiService.ts lines 835-852 and 943-1011) -/

/-- Model of `getDefaultSignatures()` (aiService.ts lines 835-852). -/
def getDefaultSignatures : List SignatureData :=
  [{ id := "default_1", name := "John Doe", type := SignatureType.typed,
     data := "John Doe", isDefault := true },
   { id := "default_2", name := "Digital Signature", type := SignatureType.image,
     data := "data:image/png;base64,iVBORw0KGgoAAAANSUhEUgAAAAEAAAABCAYAAAAfFcSJAAAADUlEQVR42mNkYPhfDwAChwGA60e6kgAAAABJRU5ErkJggg==",
     isDefault := true }]

/-- The non-string-valued part of the `userData` record relevant to
processing: an optional `signatures` array of signature objects. -/
structure UserData where
  entries : List (String × String)
  signatures : List SignatureData
deriving DecidableEq, Repr

/-- Normalisation of a user-supplied signature object
(aiService.ts lines 989-995); absent sub-fields are defaulted. -/
def normalizeUserSignature (sig : SignatureData) : SignatureData :=
  { id := jsStrOr sig.id "user_sig", name := jsStrOr sig.name "User Signature",
    type := sig.type, data := jsStrOr sig.data "User", isDefault := false }

/-- The `signatures` array built by `processDocument`
(aiService.ts lines 943-1011): signature-typed filled fields first, then
previously-unseen analysis zones with a default typed signature, then — only
when both are empty — user-supplied signatures or the built-in defaults. -/
def collectSignatures (filledFields : List FormField)
    (analysisSignatures : List SignatureZone) (userData : UserData) :
    List SignatureData :=
  let fromFields := filledFields.filterMap fun field =>
    if field.type = FieldType.signature && jsTruthy field.value then
      let v := field.value.getD ""
      if strStartsWith v "data:image/" || strStartsWith v "data:application/" then
        some { id := field.id, name := jsStrOr field.label "Signature",
               type := SignatureType.image, data := v, isDefault := false }
      else
        some { id := field.id, name := jsStrOr field.label "Signature",
               type := SignatureType.typed, data := v, isDefault := false }
    else none
  let withZones := analysisSignatures.foldl
    (fun sigs sig =>
      if (sigs.find? (fun s => s.id = sig.id)).isSome then sigs
      else sigs ++ [{ id := sig.id, name := jsStrOr sig.label "Signature",
                      type := SignatureType.typed, data := "John Doe", isDefault := true }])
    fromFields
  if withZones.isEmpty then
    if userData.signatures.isEmpty = false then
      userData.signatures.map normalizeUserSignature
    else getDefaultSignatures
  else withZones

/-! ## Signature request builder (aiService.ts lines 1034-1213) -/

/-- The fixed five-point placeholder stroke
(aiService.ts lines 1063-1069, 1122-1128 and 1151-1157). -/
def defaultFivePoints (now : Nat) : List SigPoint :=
  [⟨0, 0, 1, now⟩, ⟨50, 10, 1, now + 100⟩, ⟨100, 0, 1, now + 200⟩,
   ⟨100, 20, 1, now + 300⟩, ⟨0, 20, 1, now + 400⟩]

/-- Numeric property of a parsed point with JS `||` defaulting
(`point.x || d`: absent, non-numeric and zero values all yield the default). -/
def jPointNum (v : JVal) (k : String) (d : Rat) : Rat :=
  match jLookup v k with
  | some (JVal.num q) => if q = 0 then d else q
  | _ => d

/-- Conversion of the `i`-th parsed vector point to a timestamped stroke point
(aiService.ts lines 1049-1054 and 1108-1113). -/
def convPoint (now : Nat) (p : Nat × JVal) : SigPoint :=
  { x := jPointNum p.2 "x" ((p.1 * 10 : Nat) : Rat), y := jPointNum p.2 "y" 0,
    pressure := jPointNum p.2 "pressure" 1, timestamp := now + p.1 * 10 }

/-- Points obtained by `JSON.parse`-ing a signature payload: a parsed JSON
array maps elementwise to stroke points, anything else (parse failure or a
non-array) leaves no points, in which case the five-point placeholder is
used. -/
def pointsFromJsonString (data : String) (now : Nat) : List SigPoint :=
  let pts :=
    match jsonParse data with
    | some (JVal.arr vs) => vs.enum.map (convPoint now)
    | _ => []
  if pts.isEmpty then defaultFivePoints now else pts

/-- Stroke points for a matched `SignatureData`
(aiService.ts lines 1042-1070): vector data is parsed only for signatures of
type `drawing` with truthy data; every other case gets the placeholder. -/
def signaturePointsFromData (sig : SignatureData) (now : Nat) : List SigPoint :=
  if sig.type = SignatureType.drawing && sig.data ≠ "" then
    pointsFromJsonString sig.data now
  else defaultFivePoints now

/-- Pass 1 of the builder (aiService.ts lines 1037-1083): one request per
signature-typed filled field with a truthy value and a `SignatureData`
sharing its id. -/
def pass1Requests (filledFields : List FormField) (signatures : List SignatureData)
    (now : Nat) : List SignatureRequest :=
  filledFields.enum.filterMap fun p =>
    let index := p.1
    let field := p.2
    if field.type = FieldType.signature && jsTruthy field.value then
      match signatures.find? (fun s => s.id = field.id) with
      | some signature =>
        some { points := signaturePointsFromData signature now,
               x := jsNumOr field.position.x (((100 + index * 150 : Nat) : Rat)),
               y := jsNumOr field.position.y 200,
               width := jsNumOr field.position.width 120,
               height := jsNumOr field.position.height 40,
               color := "#000000", page := jsNumOr field.page 0 }
      | none => none
    else none

/-- One pass-2 request for an analysis zone with a user-supplied signature
value (aiService.ts lines 1101-1139). -/
def zoneRequest (sig : SignatureZone) (index : Nat) (signatureValue : String)
    (now : Nat) : SignatureRequest :=
  { points := pointsFromJsonString signatureValue now,
    x := jsNumOr sig.position.x (((100 + index * 150 : Nat) : Rat)),
    y := jsNumOr sig.position.y 200,
    width := jsNumOr sig.position.width 120,
    height := jsNumOr sig.position.height 40,
    color := "#000000", page := jsNumOr sig.page 0 }

/-- Pass 2 step (aiService.ts lines 1086-1145): skip a zone whose `(x, y)`
position is already covered by an accumulated request, otherwise look up a
truthy `signature_<zoneId>` user value and append a request for it. -/
def pass2Step (entries : List (String × String)) (now : Nat)
    (acc : List SignatureRequest) (p : Nat × SignatureZone) : List SignatureRequest :=
  let index := p.1
  let sig := p.2
  if (acc.find? fun req => req.x = sig.position.x && req.y = sig.position.y).isSome then
    acc
  else
    let signatureValue := lookupEntry entries ("signature_" ++ sig.id)
    if jsTruthy signatureValue then
      acc ++ [zoneRequest sig index (signatureValue.getD "") now]
    else acc

/-- The requests accumulated by passes 1 and 2 of the builder. -/
def fieldAndZoneRequests (filledFields : List FormField)
    (analysisSignatures : List SignatureZone) (signatures : List SignatureData)
    (entries : List (String × String)) (now : Nat) : List SignatureRequest :=
  analysisSignatures.enum.foldl (pass2Step entries now)
    (pass1Requests filledFields signatures now)

/-- The fixed default request of pass 3 (aiService.ts lines 1150-1164). -/
def defaultSignatureRequest (now : Nat) : SignatureRequest :=
  { points := defaultFivePoints now, x := 100, y := 200, width := 120, height := 40,
    color := "#000000", page := 0 }

/-- The array `signatureRequests` as finally constructed (aiService.ts lines 1034-1165):
passes 1 and 2, with the single default request appended when both passes
produced nothing. -/
def buildSignatureRequests (filledFields : List FormField)
    (analysisSignatures : List SignatureZone) (signatures : List SignatureData)
    (entries : List (String × String)) (now : Nat) : List SignatureRequest :=
  let reqs := fieldAndZoneRequests filledFields analysisSignatures signatures entries now
  if reqs.isEmpty then [defaultSignatureRequest now] else reqs

/-- The seen-set cycle check of aiService.ts lines 1187-1199.  It detects
reference cycles via object identity; the request array is freshly
constructed from immutable value data, so on the values this embedding ranges
over it is constantly `false` (there is no aliasing to create a cycle). -/
def isCircular (_ : List SignatureRequest) : Bool := false

/-- The `signatures` array serialised into the multipart body
(aiService.ts lines 1184-1213): the built requests, with the cycle guard
substituting an empty array. -/
def signaturesSentToBackend (filledFields : List FormField)
    (analysisSignatures : List SignatureZone) (signatures : List SignatureData)
    (entries : List (String × String)) (now : Nat) : List SignatureRequest :=
  let reqs := buildSignatureRequests filledFields analysisSignatures signatures entries now
  if isCircular reqs then [] else reqs

/-! ## Backend handoff and `processDocument` (aiService.ts lines 912-1276,
1391-1424) -/

/-- The error substring that identifies the Hebrew-encoding backend failure
(aiService.ts line 1249). -/
def winAnsiMarker : String := "WinAnsi cannot encode"

/-- The specific Hebrew letter the error body is probed for
(aiService.ts line 1249). -/
def hebrewLamed : String := "ל"

/-- Model of `createHebrewDocumentFallback(fileUri, fileType, signatures, analysis)`
(aiService.ts lines 1391-1424): re-extract content (DOCX only), write a
plain-text rendering to `hebrew_document_<now>.txt` in the document
directory, and return its URI; any error falls back to the original URI. -/
def createHebrewDocumentFallback (env : RunEnv) (fileUri : String)
    (fileType : FileType) : String :=
  match fileType with
  | FileType.docx =>
    match env.docxContent with
    | none => fileUri
    | some _ => env.docDir ++ "hebrew_document_" ++ toString env.now ++ ".txt"
  | FileType.pdf => env.docDir ++ "hebrew_document_" ++ toString env.now ++ ".txt"

/-- Model of `saveProcessedDocument` target URI (aiService.ts lines 874-892). -/
def processedDocumentUri (env : RunEnv) (fileType : FileType) : String :=
  env.docDir ++ "processed_document_" ++ toString env.now ++ "." ++ fileTypeStr fileType

/-- The `signedDocumentUri` resolved by the backend-call block
(aiService.ts lines 1028-1260): a 2xx response is persisted, a non-2xx
response with the Hebrew-encoding signature triggers the plain-text fallback,
any other non-2xx response and any fetch error fall back to the original
upload URI. -/
def resolveSignedDocumentUri (env : RunEnv) (fileUri : String)
    (fileType : FileType) : String :=
  match env.backend with
  | BackendOutcome.ok _ => processedDocumentUri env fileType
  | BackendOutcome.httpError _ body =>
    if substrContains body winAnsiMarker && substrContains body hebrewLamed then
      createHebrewDocumentFallback env fileUri fileType
    else fileUri
  | BackendOutcome.netError => fileUri

/-- Model of `processDocument(fileUri, fileType, userData)`
(aiService.ts lines 912-1276): analyse, fill, answer, build the signature
payload, call the backend, and resolve a result whose `success`, `errors` and
`warnings` fields are constants. -/
def processDocument (env : RunEnv) (fileUri : String) (fileType : FileType)
    (userData : UserData) : Except String AIProcessingResult :=
  match analyzeDocument env fileUri fileType with
  | Except.error _ =>
    Except.error ("Failed to process " ++ fileTypeUpper fileType ++ " document")
  | Except.ok analysis =>
    let filledFields := fillFormFields env.today analysis.formFields userData.entries
    let answeredQuestions := answerQuestions env.today analysis.questions
    let signatures := collectSignatures filledFields analysis.signatures userData
    let _sentSignatures := signaturesSentToBackend filledFields analysis.signatures
      signatures userData.entries env.now
    let signedDocumentUri := resolveSignedDocumentUri env fileUri fileType
    Except.ok
      { success := true, analysis := analysis, filledFields := filledFields,
        answeredQuestions := answeredQuestions,
        signedDocumentUri := some signedDocumentUri,
        processingTime := analysis.processingTime,
        errors := some [], warnings := some [] }

/-! ## Concrete fixtures used by the scenario claims -/

/-- The scenario content of the heuristic-analyzer claim. -/
def c2Content : String := "Name: _____\nSignature: _____\nDo you agree?"

/-- A model output that is a valid object except for one trailing comma. -/
def c4TrailingInput : String := "\x7b\"language\":\"fr\",\x7d"

/-- The string `c4TrailingInput` with the trailing comma removed. -/
def c4RepairedInput : String := "\x7b\"language\":\"fr\"\x7d"

/-- A model output with commentary around a valid JSON object. -/
def c4RecoverableInput : String := "Sure! Here is the JSON: \x7b\"language\":\"he\"\x7d"

/-- The vector payload of the signature-binding claim. -/
def c6DrawingData : String := "[\x7b\"x\":1,\"y\":2\x7d]"

/-- A signature-typed form field with a truthy value and id `sig1`. -/
def c6SignatureField : FormField :=
  { id := "sig1", type := FieldType.signature, label := "Signature",
    value := some "John", required := true, position := ⟨100, 150, 200, 30⟩,
    page := 1, confidence := 0.95, suggestions := none, validation := none }

/-- A drawing signature carrying the vector payload, sharing id `sig1`. -/
def c6SignatureDrawing : SignatureData :=
  { id := "sig1", name := "Signature", type := SignatureType.drawing,
    data := c6DrawingData, isDefault := false }

/-- A typed signature carrying the same payload and id. -/
def c6SignatureTyped : SignatureData :=
  { id := "sig1", name := "Signature", type := SignatureType.typed,
    data := c6DrawingData, isDefault := false }

/-- A `userData` record with no entries and no signatures. -/
def emptyUserData : UserData := ⟨[], []⟩

/-- A baseline run environment: no LLM configured, PDF upload, fetch errors. -/
def baseEnv : RunEnv :=
  { llmUrl := none, provider := ProviderOutcome.netError, docxContent := none,
    fileSize := 10, backend := BackendOutcome.netError, now := 0,
    today := "2026-01-01", docDir := "file:///docs/", elapsedSeconds := 1 }

/-- A run whose signing backend fails with the WinAnsi marker and a Hebrew
letter other than the probed one. -/
def hebrewAlefEnv : RunEnv :=
  { baseEnv with backend := BackendOutcome.httpError 500 "WinAnsi cannot encode א" }

/-- A run whose signing backend fails with the WinAnsi marker and the letter
the code probes for. -/
def hebrewLamedEnv : RunEnv :=
  { baseEnv with backend := BackendOutcome.httpError 500 "WinAnsi cannot encode: ל" }

/-- A run whose signing backend fails with an unrelated error body. -/
def backendFailEnv : RunEnv :=
  { baseEnv with backend := BackendOutcome.httpError 502 "upstream failure" }

/-- Placeholder analysis used as the default of `runResult`. -/
def dummyAnalysis : DocumentAnalysis :=
  { documentInfo := ⟨"", 0, 0, "", none, none⟩, formFields := [], questions := [],
    signatures := [], processingTime := 0, confidence := 0, content := none,
    summary := none, keyInsights := none, riskAssessment := none }

/-- Placeholder result used as the default of `runResult`. -/
def dummyResult : AIProcessingResult :=
  { success := false, analysis := dummyAnalysis, filledFields := [],
    answeredQuestions := [], signedDocumentUri := none, processingTime := 0,
    errors := none, warnings := none }

/-- The result of a resolving `processDocument` run (default on rejection). -/
def runResult (env : RunEnv) (fileUri : String) (fileType : FileType)
    (userData : UserData) : AIProcessingResult :=
  match processDocument env fileUri fileType userData with
  | Except.ok r => r
  | Except.error _ => dummyResult

/-- The provider-failure condition of claim C1: LLM URL unconfigured (or
empty), fetch rejection, timeout, non-2xx status, or a 2xx response from
which no JSON object can be extracted and parsed. -/
def providerFails (llmUrl : Option String) (outcome : ProviderOutcome) : Prop :=
  jsTruthy llmUrl = false
  ∨ outcome = ProviderOutcome.netError
  ∨ outcome = ProviderOutcome.timeout
  ∨ (∃ st, outcome = ProviderOutcome.httpError st)
  ∨ (∃ resp, outcome = ProviderOutcome.ok resp ∧ extractAnalysisJson resp = none)

/-! ## Helper lemmas -/

theorem string_data_append (s t : String) : (s ++ t).data = s.data ++ t.data := by
  cases s
  cases t
  rfl

theorem listIsPrefix_append_self (x y : List Char) : listIsPrefix x (x ++ y) = true := by
  induction x with
  | nil => rfl
  | cons c cs ih => simp [listIsPrefix, ih]

theorem strEndsWith_append (a p : String) : strEndsWith (a ++ p) p = true := by
  unfold strEndsWith
  rw [string_data_append, List.reverse_append]
  exact listIsPrefix_append_self p.data.reverse a.data.reverse

theorem string_append_ne_empty_of_ne (a p : String) (hp : p ≠ "") : a ++ p ≠ "" := by
  intro h
  apply hp
  have hd := congrArg String.data h
  rw [string_data_append] at hd
  have : p.data = [] := (List.append_eq_nil.mp hd).2
  cases p
  cases this
  rfl

/-! ## Claim theorems -/

/-- Claim C8: for every input string, `detectLanguage` returns exactly one tag
from the fixed set `{he, ar, zh, ja, ko, ru, th, hi, en}`, is deterministic,
tests the Unicode-block patterns in the fixed priority order (Hebrew, Arabic,
Chinese, Japanese, Korean, Cyrillic, Thai, Devanagari) returning the first
that matches, and returns `"en"` when none match. -/
theorem C8_detectLanguage_first_match (text : String) :
    detectLanguage text ∈ languageTags
    ∧ detectLanguage text
        = (((languagePriority.find? fun p => text.data.any p.1).map Prod.snd).getD "en")
    ∧ (∀ t, text = t → detectLanguage text = detectLanguage t) := by
  refine ⟨?_, ?_, fun t h => by rw [h]⟩
  · unfold detectLanguage
    split_ifs <;> simp [languageTags]
  · unfold detectLanguage
    split_ifs with h1 h2 h3 h4 h5 h6 h7 h8
    · simp [languagePriority, List.find?_cons, h1]
    · simp [languagePriority, List.find?_cons, h1, h2]
    · simp [languagePriority, List.find?_cons, h1, h2, h3]
    · simp [languagePriority, List.find?_cons, h1, h2, h3, h4]
    · simp [languagePriority, List.find?_cons, h1, h2, h3, h4, h5]
    · simp [languagePriority, List.find?_cons, h1, h2, h3, h4, h5, h6]
    · simp [languagePriority, List.find?_cons, h1, h2, h3, h4, h5, h6, h7]
    · simp [languagePriority, List.find?_cons, h1, h2, h3, h4, h5, h6, h7, h8]
    · simp [languagePriority, List.find?_cons, h1, h2, h3, h4, h5, h6, h7, h8]

/-- Witness for C8 at the concrete input `"hello"`. -/
theorem C8_witness :
    detectLanguage "hello" = detectLanguage "hello"
    ∧ detectLanguage "hello" ∈ languageTags :=
  ⟨(C8_detectLanguage_first_match "hello").2.2 "hello" rfl,
   (C8_detectLanguage_first_match "hello").1⟩

/-- Counterexample for claim C2: on the scenario content the field extraction
yields **two text fields** (labels `"Name:"` and `"Signature:"`) and **no
signature field** -- the underscore rule of the `else if` chain fires on the
`Signature: _____` line before the signature-keyword rule is reached -- so the
claimed "exactly one text field and exactly one signature field" is false. -/
theorem C2_counterexample :
    (extractFormFieldsFromContent c2Content).map (fun f => (f.type, f.label))
      = [(FieldType.text, "Name:"), (FieldType.text, "Signature:")]
    ∧ ((extractFormFieldsFromContent c2Content).filter
        (fun f => f.type = FieldType.signature)).length = 0 := by
  constructor
  · rfl
  · rfl

/-- Claim C2 (amended): for the scenario content, field extraction produces
exactly two text fields labelled `"Name:"` and `"Signature:"` (ids `field_0`
and `field_1`) and no signature field, and question extraction produces
exactly one yes/no question with text `"Do you agree?"`. -/
theorem C2_amended_heuristic_scenario :
    (extractFormFieldsFromContent c2Content).map (fun f => (f.id, f.type, f.label))
      = [("field_0", FieldType.text, "Name:"), ("field_1", FieldType.text, "Signature:")]
    ∧ (extractQuestionsFromContent c2Content).map (fun q => (q.id, q.type, q.text))
      = [("question_2", QuestionType.yes_no, "Do you agree?")] := by
  constructor
  · rfl
  · rfl

/-- Counterexample for claim C4: the model output `{"language":"fr",}`
contains a balanced brace span (the whole string) that is valid JSON except
for a trailing comma before `}`, yet the recovery step returns the heuristic
fallback (language `"en"`), not an object reproducing the original structure
(language `"fr"`) -- there is no trailing-comma repair in the code. -/
theorem C4_counterexample :
    jsonSpan c4TrailingInput = some c4TrailingInput
    ∧ (jsonParse c4TrailingInput).isNone = true
    ∧ ((jsonParse c4RepairedInput).map fun j => jStrOpt (jLookup j "language"))
        = some (some "fr")
    ∧ (recoverAnalysis "" "pdf" c4TrailingInput).language = some "en"
    ∧ recoverAnalysis "" "pdf" c4TrailingInput = getFallbackAnalysis "" "pdf" := by
  refine ⟨rfl, rfl, rfl, rfl, rfl⟩

/-- Claim C4 (amended): the recovery step performs no trailing-comma repair;
if the first-`{`-to-last-`}` span of the model output parses as JSON the
parsed object is returned, and otherwise -- including spans malformed only by
trailing commas -- the parse failure is caught and the heuristic fallback
analysis is returned, so no parse exception ever propagates to the caller. -/
theorem C4_amended_recovery_total (content fileType aiResponse : String) :
    (∀ j, extractAnalysisJson aiResponse = some j →
      recoverAnalysis content fileType aiResponse = decodeRaw j)
    ∧ (extractAnalysisJson aiResponse = none →
      recoverAnalysis content fileType aiResponse = getFallbackAnalysis content fileType) := by
  constructor
  · intro j hj
    unfold recoverAnalysis
    rw [hj]
  · intro hj
    unfold recoverAnalysis
    rw [hj]

/-- Witness for C4 (amended) at a concrete recoverable model output. -/
theorem C4_witness :
    recoverAnalysis "" "pdf" c4RecoverableInput
      = decodeRaw (JVal.obj [("language", JVal.str "he")]) :=
  (C4_amended_recovery_total "" "pdf" c4RecoverableInput).1
    (JVal.obj [("language", JVal.str "he")]) rfl

/-- Counterexample for claim C6: a `SignatureData` whose `data` is exactly
`[{"x":1,"y":2}]`, bound to a signature-type form field sharing its id, but of
type `typed` (which is what `processDocument` itself constructs from a field
value), yields the five-point placeholder stroke, not a single point -- the
vector parse is only attempted for signatures of type `drawing`. -/
theorem C6_counterexample :
    c6SignatureTyped.data = c6DrawingData
    ∧ c6SignatureTyped.id = c6SignatureField.id
    ∧ c6SignatureField.type = FieldType.signature
    ∧ (pass1Requests [c6SignatureField] [c6SignatureTyped] 0).map
        (fun r => r.points.length) = [5] := by
  refine ⟨rfl, rfl, rfl, rfl⟩

/-- Claim C6 (amended): a `SignatureData` **of type `drawing`** whose `data`
is `[{"x":1,"y":2}]`, bound to a signature-type form field sharing its id,
produces a request whose `points` has length one with `x = 1` and `y = 2`;
a non-`drawing` signature, or one whose data does not parse as a JSON array,
gets the synthesized fixed five-point placeholder stroke instead. -/
theorem C6_amended_drawing_points (sig : SignatureData) (now : Nat) :
    (sig.type = SignatureType.drawing → sig.data = c6DrawingData → sig.id = "sig1" →
      signaturePointsFromData sig now = [⟨1, 2, 1, now⟩]
      ∧ (pass1Requests [c6SignatureField] [sig] now).map (fun r => r.points)
          = [[⟨1, 2, 1, now⟩]])
    ∧ (sig.type ≠ SignatureType.drawing →
        signaturePointsFromData sig now = defaultFivePoints now)
    ∧ ((∀ vs, jsonParse sig.data ≠ some (JVal.arr vs)) →
        signaturePointsFromData sig now = defaultFivePoints now)
    ∧ (defaultFivePoints now).length = 5 := by
  have hparse : jsonParse c6DrawingData
      = some (JVal.arr [JVal.obj [("x", JVal.num 1), ("y", JVal.num 2)]]) := by rfl
  refine ⟨?_, ?_, ?_, rfl⟩
  · intro h1 h2 h3
    have hpts : signaturePointsFromData sig now = [⟨1, 2, 1, now⟩] := by
      unfold signaturePointsFromData
      rw [h1, h2]
      simp only [pointsFromJsonString, hparse]
      simp [convPoint, jPointNum, jLookup, List.find?, List.enum, List.enumFrom,
        c6DrawingData]
    refine ⟨hpts, ?_⟩
    unfold pass1Requests
    simp only [List.enum, List.enumFrom, List.filterMap]
    simp [c6SignatureField, List.find?, h3, hpts, jsTruthy]
  · intro h1
    unfold signaturePointsFromData
    have : (sig.type = SignatureType.drawing && sig.data ≠ "") = false := by
      cases ht : sig.type <;> simp_all
    rw [this]
    simp
  · intro h1
    unfold signaturePointsFromData
    by_cases hc : (sig.type = SignatureType.drawing && sig.data ≠ "") = true
    · rw [hc]
      simp only [if_true]
      unfold pointsFromJsonString
      cases hp : jsonParse sig.data with
      | none => simp
      | some v =>
        cases v with
        | arr vs => exact absurd hp (h1 vs)
        | null => simp
        | bool b => simp
        | num q => simp
        | str s => simp
        | obj fs => simp
    · rw [Bool.not_eq_true] at hc
      rw [hc]
      simp

/-- Witness for C6 (amended) at the concrete drawing and typed signatures. -/
theorem C6_witness :
    signaturePointsFromData c6SignatureDrawing 0 = [⟨1, 2, 1, 0⟩]
    ∧ signaturePointsFromData c6SignatureTyped 0 = defaultFivePoints 0 :=
  ⟨((C6_amended_drawing_points c6SignatureDrawing 0).1 rfl rfl rfl).1,
   (C6_amended_drawing_points c6SignatureTyped 0).2.1 (by simp [c6SignatureTyped])⟩

/-- Claim C3: for every combination of filled fields, analysis signature zones
and user data -- including all empty -- the signature-request array handed to
the signing backend is non-empty; when no field-derived or zone-derived
request exists, exactly one default request at the fixed fallback position
(`x:100, y:200, width:120, height:40, page:0`) with a five-point stroke is
emitted. -/
theorem C3_backend_always_receives_request (filledFields : List FormField)
    (zones : List SignatureZone) (signatures : List SignatureData)
    (entries : List (String × String)) (now : Nat) :
    signaturesSentToBackend filledFields zones signatures entries now ≠ []
    ∧ (fieldAndZoneRequests filledFields zones signatures entries now = [] →
        signaturesSentToBackend filledFields zones signatures entries now
          = [defaultSignatureRequest now])
    ∧ defaultSignatureRequest now
        = { points := defaultFivePoints now, x := 100, y := 200, width := 120,
            height := 40, color := "#000000", page := 0 }
    ∧ (defaultFivePoints now).length = 5 := by
  refine ⟨?_, ?_, rfl, rfl⟩
  · unfold signaturesSentToBackend isCircular buildSignatureRequests
    cases h : fieldAndZoneRequests filledFields zones signatures entries now with
    | nil => simp
    | cons a l => simp
  · intro h
    unfold signaturesSentToBackend isCircular buildSignatureRequests
    rw [h]
    rfl

/-- Witness for C3 at all-empty inputs. -/
theorem C3_witness :
    signaturesSentToBackend [] [] [] [] 0 ≠ []
    ∧ signaturesSentToBackend [] [] [] [] 0 = [defaultSignatureRequest 0] :=
  ⟨(C3_backend_always_receives_request [] [] [] [] 0).1,
   (C3_backend_always_receives_request [] [] [] [] 0).2.1 rfl⟩

/-- Claim C9: `fillFormFields` returns a list of the same length and order as
its input, every output field agrees with the corresponding input field on
every property except `value`, and `value` is always set on the output. -/
theorem C9_fill_is_frame_preserving (today : String) (fields : List FormField)
    (entries : List (String × String)) :
    (fillFormFields today fields entries).length = fields.length
    ∧ List.Forall₂ (fun f o =>
        o.id = f.id ∧ o.type = f.type ∧ o.label = f.label ∧ o.required = f.required
        ∧ o.position = f.position ∧ o.page = f.page ∧ o.confidence = f.confidence
        ∧ o.suggestions = f.suggestions ∧ o.validation = f.validation
        ∧ o.value.isSome = true) fields (fillFormFields today fields entries) := by
  constructor
  · simp [fillFormFields]
  · induction fields with
    | nil => exact List.Forall₂.nil
    | cons f fs ih =>
      refine List.Forall₂.cons ?_ ih
      unfold fillOneField
      cases hv : findUserValue f.label entries with
      | none => simp [jsTruthy]
      | some v =>
        by_cases hve : v = ""
        · simp [jsTruthy, hve]
        · simp [jsTruthy, hve]

/-- Claim C1: whenever the provider tier fails at any stage (LLM URL
unconfigured, network error, timeout, non-2xx status, or unparseable model
output), `analyzeContentWithAI` returns the heuristic fallback analysis
instead of raising, and every `DocumentAnalysis` that `analyzeDocument`
resolves carries its `formFields`/`questions`/`signatures` as the
defensively-defaulted arrays -- in the failure case the concrete heuristic
arrays. -/
theorem C1_provider_failure_falls_back (llmUrl : Option String)
    (content fileType : String) (outcome : ProviderOutcome)
    (hfail : providerFails llmUrl outcome) :
    analyzeContentWithAI llmUrl content fileType outcome
      = getFallbackAnalysis content fileType
    ∧ (analyzeContentWithAI llmUrl content fileType outcome).formFields
        = some (extractFormFieldsFromContent content)
    ∧ (analyzeContentWithAI llmUrl content fileType outcome).questions
        = some (extractQuestionsFromContent content)
    ∧ (analyzeContentWithAI llmUrl content fileType outcome).signatures
        = some (getGenericSignatures (detectLanguage content))
    ∧ (∀ env fileUri ft a, analyzeDocument env fileUri ft = Except.ok a →
        ∃ c, documentContent env ft = some c
          ∧ a.formFields = ((analyzeContentWithAI env.llmUrl c (fileTypeStr ft)
              env.provider).formFields).getD []
          ∧ a.questions = ((analyzeContentWithAI env.llmUrl c (fileTypeStr ft)
              env.provider).questions).getD []
          ∧ a.signatures = ((analyzeContentWithAI env.llmUrl c (fileTypeStr ft)
              env.provider).signatures).getD []) := by
  have hmain : analyzeContentWithAI llmUrl content fileType outcome
      = getFallbackAnalysis content fileType := by
    unfold analyzeContentWithAI
    by_cases hurl : jsTruthy llmUrl = false
    · rw [if_pos hurl]
    · rw [if_neg hurl]
      rcases hfail with h | h | h | ⟨st, h⟩ | ⟨resp, h, hx⟩
      · exact absurd h hurl
      · rw [h]
      · rw [h]
      · rw [h]
      · rw [h]
        show recoverAnalysis content fileType resp = getFallbackAnalysis content fileType
        unfold recoverAnalysis
        rw [hx]
  refine ⟨hmain, ?_, ?_, ?_, ?_⟩
  · rw [hmain]; rfl
  · rw [hmain]; rfl
  · rw [hmain]; rfl
  · intro env fileUri ft a hok
    unfold analyzeDocument at hok
    cases hc : documentContent env ft with
    | none => rw [hc] at hok; exact absurd hok (by simp)
    | some c =>
      rw [hc] at hok
      refine ⟨c, rfl, ?_, ?_, ?_⟩ <;>
        · cases hok
          rfl

/-- Witness for C1 with an unconfigured LLM URL. -/
theorem C1_witness :
    analyzeContentWithAI none "Name: _____" "pdf" ProviderOutcome.netError
      = getFallbackAnalysis "Name: _____" "pdf"
    ∧ (analyzeContentWithAI none "Name: _____" "pdf" ProviderOutcome.netError).formFields
      = some (extractFormFieldsFromContent "Name: _____") :=
  ⟨(C1_provider_failure_falls_back none "Name: _____" "pdf" ProviderOutcome.netError
      (Or.inl rfl)).1,
   (C1_provider_failure_falls_back none "Name: _____" "pdf" ProviderOutcome.netError
      (Or.inl rfl)).2.1⟩

/-- Claim C10: whenever `processDocument` resolves, the returned result has
`success = true`, `errors = []` and `warnings = []` -- no failure, including a
backend failure, is ever reported through these fields. -/
theorem C10_resolved_result_reports_no_failure (env : RunEnv) (fileUri : String)
    (fileType : FileType) (userData : UserData) (r : AIProcessingResult)
    (hok : processDocument env fileUri fileType userData = Except.ok r) :
    r.success = true ∧ r.errors = some [] ∧ r.warnings = some [] := by
  unfold processDocument at hok
  cases ha : analyzeDocument env fileUri fileType with
  | error e => rw [ha] at hok; exact absurd hok (by simp)
  | ok analysis =>
    rw [ha] at hok
    cases hok
    exact ⟨rfl, rfl, rfl⟩

/-- Witness for C10 at a concrete run with every external call failing. -/
theorem C10_witness :
    (runResult baseEnv "file:///doc.pdf" FileType.pdf emptyUserData).success = true
    ∧ (runResult baseEnv "file:///doc.pdf" FileType.pdf emptyUserData).errors = some []
    ∧ (runResult baseEnv "file:///doc.pdf" FileType.pdf emptyUserData).warnings = some [] :=
  C10_resolved_result_reports_no_failure baseEnv "file:///doc.pdf" FileType.pdf
    emptyUserData (runResult baseEnv "file:///doc.pdf" FileType.pdf emptyUserData) rfl

/-- Counterexample for claim C7: on a run whose backend rejects with `502`
and a non-Hebrew body, `processDocument` resolves with the original URI, but
the failure is **not** surfaced as a warning -- the resolved result's
`warnings` array is empty (as are `errors`), so the claim's "surfaced as a
warning in the result" is false. -/
theorem C7_counterexample :
    backendFailEnv.backend = BackendOutcome.httpError 502 "upstream failure"
    ∧ processDocument backendFailEnv "file:///doc.pdf" FileType.pdf emptyUserData
        = Except.ok (runResult backendFailEnv "file:///doc.pdf" FileType.pdf emptyUserData)
    ∧ (runResult backendFailEnv "file:///doc.pdf" FileType.pdf
        emptyUserData).signedDocumentUri = some "file:///doc.pdf"
    ∧ (runResult backendFailEnv "file:///doc.pdf" FileType.pdf emptyUserData).warnings
        = some []
    ∧ (runResult backendFailEnv "file:///doc.pdf" FileType.pdf emptyUserData).errors
        = some [] :=
  ⟨rfl, rfl, rfl, rfl, rfl⟩

/-- Claim C7 (amended): when the signing backend returns a non-2xx status
whose body does not carry the Hebrew-encoding failure signature,
`processDocument` still resolves with `signedDocumentUri` equal to the
original input URI; the backend failure is only logged to the console -- the
resolved result's `warnings` (and `errors`) arrays are empty and `success` is
`true`. -/
theorem C7_amended_backend_error_only_logged (env : RunEnv) (fileUri : String)
    (fileType : FileType) (userData : UserData) (st : Nat) (body : String)
    (r : AIProcessingResult)
    (hb : env.backend = BackendOutcome.httpError st body)
    (hw : (substrContains body winAnsiMarker && substrContains body hebrewLamed) = false)
    (hok : processDocument env fileUri fileType userData = Except.ok r) :
    r.signedDocumentUri = some fileUri ∧ r.warnings = some []
    ∧ r.errors = some [] ∧ r.success = true := by
  unfold processDocument at hok
  cases ha : analyzeDocument env fileUri fileType with
  | error e => rw [ha] at hok; exact absurd hok (by simp)
  | ok analysis =>
    rw [ha] at hok
    cases hok
    refine ⟨?_, rfl, rfl, rfl⟩
    show some (resolveSignedDocumentUri env fileUri fileType) = some fileUri
    unfold resolveSignedDocumentUri
    rw [hb]
    show some (if (substrContains body winAnsiMarker
        && substrContains body hebrewLamed) = true
      then createHebrewDocumentFallback env fileUri fileType else fileUri)
      = some fileUri
    rw [hw]
    rfl

/-- Witness for C7 (amended) at a concrete failing-backend run. -/
theorem C7_witness :
    (runResult backendFailEnv "file:///w.pdf" FileType.pdf emptyUserData).signedDocumentUri
      = some "file:///w.pdf"
    ∧ (runResult backendFailEnv "file:///w.pdf" FileType.pdf emptyUserData).warnings
      = some [] :=
  ⟨(C7_amended_backend_error_only_logged backendFailEnv "file:///w.pdf" FileType.pdf
      emptyUserData 502 "upstream failure"
      (runResult backendFailEnv "file:///w.pdf" FileType.pdf emptyUserData)
      rfl rfl rfl).1,
   (C7_amended_backend_error_only_logged backendFailEnv "file:///w.pdf" FileType.pdf
      emptyUserData 502 "upstream failure"
      (runResult backendFailEnv "file:///w.pdf" FileType.pdf emptyUserData)
      rfl rfl rfl).2.1⟩

/-- Counterexample for claim C5: the backend body
`"WinAnsi cannot encode א"` contains the WinAnsi marker together with a
Hebrew character, yet `processDocument` resolves with the **original** URI
(no `.txt` fallback is generated) -- the code probes specifically for the
letter `ל`, not for an arbitrary Hebrew character. -/
theorem C5_counterexample :
    hebrewAlefEnv.backend = BackendOutcome.httpError 500 "WinAnsi cannot encode א"
    ∧ substrContains "WinAnsi cannot encode א" winAnsiMarker = true
    ∧ ("WinAnsi cannot encode א".data.any isHebrewChar) = true
    ∧ processDocument hebrewAlefEnv "file:///orig.pdf" FileType.pdf emptyUserData
        = Except.ok (runResult hebrewAlefEnv "file:///orig.pdf" FileType.pdf emptyUserData)
    ∧ (runResult hebrewAlefEnv "file:///orig.pdf" FileType.pdf
        emptyUserData).signedDocumentUri = some "file:///orig.pdf"
    ∧ strEndsWith "file:///orig.pdf" ".txt" = false :=
  ⟨rfl, rfl, rfl, rfl, rfl, rfl⟩

/-- Claim C5 (amended): if the signing backend responds with a non-2xx status
whose body contains `"WinAnsi cannot encode"` together with the specific
Hebrew letter `ל`, `processDocument` resolves with a non-empty
`signedDocumentUri` pointing to the newly generated plain-text (`.txt`)
fallback document `hebrew_document_<now>.txt` in the document directory,
rather than the original file. -/
theorem C5_amended_lamed_txt_fallback (env : RunEnv) (fileUri : String)
    (fileType : FileType) (userData : UserData) (st : Nat) (body : String)
    (r : AIProcessingResult)
    (hb : env.backend = BackendOutcome.httpError st body)
    (h1 : substrContains body winAnsiMarker = true)
    (h2 : substrContains body hebrewLamed = true)
    (hok : processDocument env fileUri fileType userData = Except.ok r)
    (hnt : strEndsWith fileUri ".txt" = false) :
    r.signedDocumentUri
      = some (env.docDir ++ "hebrew_document_" ++ toString env.now ++ ".txt")
    ∧ env.docDir ++ "hebrew_document_" ++ toString env.now ++ ".txt" ≠ ""
    ∧ strEndsWith (env.docDir ++ "hebrew_document_" ++ toString env.now ++ ".txt")
        ".txt" = true
    ∧ env.docDir ++ "hebrew_document_" ++ toString env.now ++ ".txt" ≠ fileUri := by
  have htxt : strEndsWith (env.docDir ++ "hebrew_document_" ++ toString env.now ++ ".txt")
      ".txt" = true :=
    strEndsWith_append (env.docDir ++ "hebrew_document_" ++ toString env.now) ".txt"
  refine ⟨?_, ?_, htxt, ?_⟩
  · unfold processDocument at hok
    cases ha : analyzeDocument env fileUri fileType with
    | error e => rw [ha] at hok; exact absurd hok (by simp)
    | ok analysis =>
      rw [ha] at hok
      cases hok
      show some (resolveSignedDocumentUri env fileUri fileType)
        = some (env.docDir ++ "hebrew_document_" ++ toString env.now ++ ".txt")
      unfold resolveSignedDocumentUri
      rw [hb]
      show some (if (substrContains body winAnsiMarker
          && substrContains body hebrewLamed) = true
        then createHebrewDocumentFallback env fileUri fileType else fileUri)
        = some (env.docDir ++ "hebrew_document_" ++ toString env.now ++ ".txt")
      rw [if_pos (by rw [h1, h2]; rfl)]
      unfold createHebrewDocumentFallback
      cases fileType with
      | pdf => rfl
      | docx =>
        cases hd : env.docxContent with
        | some c => rfl
        | none =>
          exfalso
          unfold analyzeDocument documentContent at ha
          rw [hd] at ha
          exact absurd ha (by simp)
  · exact string_append_ne_empty_of_ne _ ".txt" (by decide)
  · intro heq
    rw [← heq] at hnt
    rw [htxt] at hnt
    exact absurd hnt (by simp)

/-- Witness for C5 (amended) at a concrete run whose backend reports the
Hebrew-encoding failure. -/
theorem C5_witness :
    (runResult hebrewLamedEnv "file:///orig.pdf" FileType.pdf
        emptyUserData).signedDocumentUri
      = some (hebrewLamedEnv.docDir ++ "hebrew_document_"
          ++ toString hebrewLamedEnv.now ++ ".txt")
    ∧ strEndsWith (hebrewLamedEnv.docDir ++ "hebrew_document_"
          ++ toString hebrewLamedEnv.now ++ ".txt") ".txt" = true :=
  ⟨(C5_amended_lamed_txt_fallback hebrewLamedEnv "file:///orig.pdf" FileType.pdf
      emptyUserData 500 "WinAnsi cannot encode: ל"
      (runResult hebrewLamedEnv "file:///orig.pdf" FileType.pdf emptyUserData)
      rfl rfl rfl rfl rfl).1,
   (C5_amended_lamed_txt_fallback hebrewLamedEnv "file:///orig.pdf" FileType.pdf
      emptyUserData 500 "WinAnsi cannot encode: ל"
      (runResult hebrewLamedEnv "file:///orig.pdf" FileType.pdf emptyUserData)
      rfl rfl rfl rfl rfl).2.2.1⟩
